import Mathlib

/-!
Verification of the BizNode Registry & Trust Synchronization subsystem
against its natural-language specification.

The definitions below are a shallow embedding of the Python sources:

* `src/registry/trust_engine.py`   — trust scoring engine
* `src/registry/models.py`         — NodeRecord data model
* `src/registry/main.py`           — registry API operations
* `src/registry/event_listener.py` — ledger event handlers and polling loop
* `src/registry/dns_resolver.py`   — two-phase DNS resolution

Modelling conventions:

* Python floats are modelled as exact rationals (`ℚ`); `Python round(x, 2)`
  is modelled as round-half-to-even on the exact rational value.
* `math.log1p` is transcendental, so every definition that uses it is
  parameterised by an abstract function `log1p : ℚ → ℚ`; theorems assume only
  facts true of the real `log1p` (e.g. `log1p 0 = 0`), and concrete
  evaluations instantiate it at inputs where those facts fully determine the
  result.
* Python ints are `ℤ`; datetimes are opaque `ℕ` timestamps; SQL rows are
  records in a list keyed by `node_hash` (SQLAlchemy `.first()` = first
  match); a `stake_wei` string column is modelled by its integer value.
* Optional/nullable strings are `Option String`; Python truthiness of such a
  field (`if req.public_key:`) is `none`/empty-string falsy.
-/

/-- Trust tier enum: the four values of `trust_tier` in the sources. -/
inductive Tier where
  | UNVERIFIED
  | VERIFIED
  | TRUSTED
  | ENTERPRISE
deriving DecidableEq, Repr

/-- Round-half-to-even to an integer (the rounding mode of Python `round`). -/
def roundHalfEven (q : ℚ) : ℤ :=
  let f := ⌊q⌋
  let r := q - (f : ℚ)
  if r < 1/2 then f
  else if 1/2 < r then f + 1
  else if f % 2 = 0 then f else f + 1

/-- Python `round(x, 2)` on the exact rational value of `x`. -/
def round2 (q : ℚ) : ℚ := (roundHalfEven (q * 100) : ℚ) / 100

-- Weights from trust_engine.py
def STAKE_WEIGHT : ℚ := 30
def UPTIME_WEIGHT : ℚ := 25
def AI_QUALITY_WEIGHT : ℚ := 20
def ENDORSEMENT_WEIGHT : ℚ := 15
def COMPLAINT_PENALTY : ℚ := 10
def VERIFIED_BONUS : ℚ := 10
def MAX_STAKE_MATIC : ℚ := 1000

/-- Inputs of `compute_trust_score` (the `TrustInputs` dataclass). -/
structure TrustInputs where
  stake_matic : ℚ := 0
  uptime_ratio : ℚ := 0
  ai_quality_score : ℚ := 0
  endorsement_count : ℤ := 0
  complaint_count : ℤ := 0
  total_interactions : ℤ := 1
  verified : Bool := false
deriving DecidableEq, Repr

/-- `_score_to_tier` from trust_engine.py: ordered threshold checks. -/
def scoreToTier (score : ℚ) (verified : Bool) : Tier :=
  if 90 ≤ score then .ENTERPRISE
  else if 70 ≤ score then .TRUSTED
  else if 40 ≤ score ∧ verified = true then .VERIFIED
  else .UNVERIFIED

/-- The clamped (but unrounded) score computed inside `compute_trust_score`
(trust_engine.py lines 59–93), parameterised by the abstract `log1p`. -/
def rawTrustScore (log1p : ℚ → ℚ) (i : TrustInputs) : ℚ :=
  let stake_norm :=
    if 0 < i.stake_matic then
      min (log1p i.stake_matic / log1p MAX_STAKE_MATIC) 1
    else 0
  let uptime_norm := max 0 (min 1 i.uptime_ratio)
  let ai_norm := max 0 (min 1 i.ai_quality_score)
  let endorsement_norm := min (log1p (i.endorsement_count : ℚ) / log1p 100) 1
  let complaint_ratio :=
    if 0 < i.total_interactions then
      (i.complaint_count : ℚ) / (i.total_interactions : ℚ)
    else 0
  let complaint_penalty := min (complaint_ratio * COMPLAINT_PENALTY) COMPLAINT_PENALTY
  let verified_bonus := if i.verified then VERIFIED_BONUS else 0
  let score :=
    stake_norm * STAKE_WEIGHT
    + uptime_norm * UPTIME_WEIGHT
    + ai_norm * AI_QUALITY_WEIGHT
    + endorsement_norm * ENDORSEMENT_WEIGHT
    - complaint_penalty
    + verified_bonus
  max 0 (min 100 score)

/-- `compute_trust_score` from trust_engine.py: returns the score rounded to
2 decimal places together with the tier computed from the *unrounded*
clamped score. -/
def compute_trust_score (log1p : ℚ → ℚ) (i : TrustInputs) : ℚ × Tier :=
  (round2 (rawTrustScore log1p i), scoreToTier (rawTrustScore log1p i) i.verified)

/-- The spec's reference score formula (spec §4.3), transcribed from its
words: `stake_norm = min(log1p(stake)/log1p(MAX_STAKE), 1)` with no
zero-stake special case, `complaint_ratio = complaints / max(total_interactions, 1)`,
`complaint_penalty = min(complaint_ratio, 1) * 10`, and an unrounded clamp
to [0, 100]. -/
def specScoreFormula (log1p : ℚ → ℚ) (i : TrustInputs) : ℚ :=
  let stake_norm := min (log1p i.stake_matic / log1p 1000) 1
  let uptime_norm := max 0 (min 1 i.uptime_ratio)
  let ai_norm := max 0 (min 1 i.ai_quality_score)
  let endorsement_norm := min (log1p (i.endorsement_count : ℚ) / log1p 100) 1
  let complaint_ratio := (i.complaint_count : ℚ) / (max (i.total_interactions : ℚ) 1)
  let complaint_penalty := min complaint_ratio 1 * 10
  let verified_bonus := if i.verified then (10 : ℚ) else 0
  max 0 (min 100
    (stake_norm * 30 + uptime_norm * 25 + ai_norm * 20 + endorsement_norm * 15
      - complaint_penalty + verified_bonus))

/-- The spec's tiering rule (spec §4.3), transcribed from the claim's words:
evaluated in order, `score ≥ 90 → ENTERPRISE`, `score ≥ 70 → TRUSTED`,
`score ≥ 40 and verified → VERIFIED`, otherwise `UNVERIFIED`. -/
def specTierRule (score : ℚ) (verified : Bool) : Tier :=
  if score ≥ 90 then .ENTERPRISE
  else if score ≥ 70 then .TRUSTED
  else if score ≥ 40 ∧ verified = true then .VERIFIED
  else .UNVERIFIED

/-- Evaluation helper: `roundHalfEven` below the midpoint rounds down. -/
lemma roundHalfEven_eq_of_lt (q : ℚ) (n : ℤ) (h1 : (n : ℚ) ≤ q) (h2 : q < n + 1/2) :
    roundHalfEven q = n := by
  have hf : ⌊q⌋ = n := Int.floor_eq_iff.mpr ⟨h1, by linarith⟩
  unfold roundHalfEven
  simp only [hf]
  rw [if_pos (by linarith)]

/-- Evaluation helper: `roundHalfEven` above the midpoint rounds up. -/
lemma roundHalfEven_eq_of_gt (q : ℚ) (n : ℤ) (h1 : (n : ℚ) + 1/2 < q) (h2 : q < n + 1) :
    roundHalfEven q = n + 1 := by
  have hf : ⌊q⌋ = n := Int.floor_eq_iff.mpr ⟨by linarith, h2⟩
  unfold roundHalfEven
  simp only [hf]
  rw [if_neg (by linarith), if_pos (by linarith)]

/-- Evaluation helper: at the midpoint, `roundHalfEven` rounds to even. -/
lemma roundHalfEven_tie (q : ℚ) (n : ℤ) (h : q = n + 1/2) :
    roundHalfEven q = if n % 2 = 0 then n else n + 1 := by
  have hf : ⌊q⌋ = n := Int.floor_eq_iff.mpr ⟨by rw [h]; linarith, by rw [h]; linarith⟩
  unfold roundHalfEven
  simp only [hf]
  rw [if_neg (by rw [h]; linarith), if_neg (by rw [h]; linarith)]

/-- `roundHalfEven` lies between floor and ceiling. -/
lemma roundHalfEven_mem_Icc (q : ℚ) :
    ⌊q⌋ ≤ roundHalfEven q ∧ roundHalfEven q ≤ ⌈q⌉ := by
  unfold roundHalfEven
  dsimp only
  split_ifs with h1 h2 h3
  · exact ⟨le_refl _, Int.floor_le_ceil q⟩
  · exact ⟨by omega, Int.add_one_le_ceil_iff.mpr (by linarith)⟩
  · exact ⟨le_refl _, Int.floor_le_ceil q⟩
  · exact ⟨by omega, Int.add_one_le_ceil_iff.mpr (by linarith)⟩

/-- `round2` of a value in `[0, 100]` stays in `[0, 100]`. -/
lemma round2_mem_Icc (q : ℚ) (h0 : 0 ≤ q) (h1 : q ≤ 100) :
    0 ≤ round2 q ∧ round2 q ≤ 100 := by
  obtain ⟨hlo, hhi⟩ := roundHalfEven_mem_Icc (q * 100)
  have hfl : (0 : ℤ) ≤ ⌊q * 100⌋ := Int.floor_nonneg.mpr (by positivity)
  have hcl : ⌈q * 100⌉ ≤ (10000 : ℤ) := Int.ceil_le.mpr (by push_cast; linarith)
  have hz : (0 : ℚ) ≤ (roundHalfEven (q * 100) : ℚ) := by exact_mod_cast le_trans hfl hlo
  have hk : (roundHalfEven (q * 100) : ℚ) ≤ 10000 := by exact_mod_cast le_trans hhi hcl
  unfold round2
  constructor
  · positivity
  · rw [div_le_iff₀ (by norm_num)]
    linarith

/-- `NodeRecord` from models.py. Datetimes are opaque `ℕ` timestamps; the
`stake_wei` string column is modelled by its integer value; nullable string
columns are `Option String`. The ORM bookkeeping columns `created_at` and
`updated_at` are not used by any claim and are omitted. -/
structure NodeRecord where
  node_hash : String
  node_id : String := ""
  public_key : Option String := none
  wallet : Option String := none
  dns_name : Option String := none
  verified : Bool := false
  stake_wei : ℤ := 0
  registered_at : Option ℕ := none
  trust_score : ℚ := 0
  uptime_score : ℚ := 0
  ai_quality_score : ℚ := 0
  complaint_count : ℤ := 0
  endorsement_count : ℤ := 0
  trust_tier : Tier := .UNVERIFIED
  ip_address : Option String := none
  last_seen : Option ℕ := none
  active : Bool := true
deriving DecidableEq, Repr

/-- The off-chain store: rows of the `nodes` table, in insertion order. -/
abbrev Registry := List NodeRecord

/-- `db.query(NodeRecord).filter_by(node_hash=h).first()`. -/
def findByHash : Registry → String → Option NodeRecord
  | [], _ => none
  | r :: rest, h => if r.node_hash = h then some r else findByHash rest h

/-- Mutate the first record whose `node_hash` matches (ORM row update). -/
def replaceFirst : Registry → String → (NodeRecord → NodeRecord) → Registry
  | [], _, _ => []
  | r :: rest, h, f =>
    if r.node_hash = h then f r :: rest else r :: replaceFirst rest h f

/-- Python truthiness of an optional string field (`None` and `""` falsy). -/
def truthy : Option String → Bool
  | none => false
  | some s => !s.isEmpty

/-- `TrustInputs` built from a record exactly as `update_node_trust`
(trust_engine.py lines 135–145) builds them: stake converted from wei to
MATIC and `total_interactions = max(1, endorsements + complaints)`. -/
def trustInputsOf (r : NodeRecord) : TrustInputs :=
  { stake_matic := (r.stake_wei : ℚ) / 10 ^ 18
    uptime_ratio := r.uptime_score
    ai_quality_score := r.ai_quality_score
    endorsement_count := r.endorsement_count
    complaint_count := r.complaint_count
    total_interactions := max 1 (r.endorsement_count + r.complaint_count)
    verified := r.verified }

/-- The record-level effect of `update_node_trust`: recompute and store
`trust_score`/`trust_tier` from the record's current fields. -/
def updateNodeTrustRec (log1p : ℚ → ℚ) (r : NodeRecord) : NodeRecord :=
  { r with
    trust_score := (compute_trust_score log1p (trustInputsOf r)).1
    trust_tier := (compute_trust_score log1p (trustInputsOf r)).2 }

/-- `update_node_trust(db_session, node_hash)` from trust_engine.py:
re-queries the record by hash, raises `ValueError` when absent, otherwise
recomputes and persists score and tier. -/
def update_node_trust (log1p : ℚ → ℚ) (db : Registry) (h : String) :
    Except String Registry :=
  match findByHash db h with
  | none => .error "node not found in registry"
  | some _ => .ok (replaceFirst db h (updateNodeTrustRec log1p))

/-- Stored score and tier agree with the scoring function applied to the
record's current field values (the spec §3 invariant). -/
def trustConsistent (log1p : ℚ → ℚ) (r : NodeRecord) : Prop :=
  r.trust_score = (compute_trust_score log1p (trustInputsOf r)).1 ∧
  r.trust_tier = (compute_trust_score log1p (trustInputsOf r)).2

instance (log1p : ℚ → ℚ) (r : NodeRecord) : Decidable (trustConsistent log1p r) :=
  inferInstanceAs (Decidable (_ ∧ _))

/-- The field updates the mutating operations perform before a recompute. -/
def incEndorsement (r : NodeRecord) : NodeRecord :=
  { r with endorsement_count := r.endorsement_count + 1 }

def incComplaint (r : NodeRecord) : NodeRecord :=
  { r with complaint_count := r.complaint_count + 1 }

def setVerifiedTrue (r : NodeRecord) : NodeRecord :=
  { r with verified := true }

def setStakeWei (s : ℤ) (r : NodeRecord) : NodeRecord :=
  { r with stake_wei := s }

def setInactive (r : NodeRecord) : NodeRecord :=
  { r with active := false }

/-- `POST /node/register` request body (main.py `NodeRegisterRequest`):
`node_hash` and `node_id` are required, the rest optional. -/
structure NodeRegisterRequest where
  node_hash : String
  node_id : String
  public_key : Option String := none
  wallet : Option String := none
  dns_name : Option String := none
  ip_address : Option String := none
deriving DecidableEq, Repr

/-- The update branch of `register_node` (main.py lines 115–122): merge
`public_key`, `ip_address`, `node_id` when truthy, stamp `last_seen`. -/
def mergeRegisterRequest (req : NodeRegisterRequest) (now : ℕ) (r : NodeRecord) :
    NodeRecord :=
  let r1 := if truthy req.public_key then { r with public_key := req.public_key } else r
  let r2 := if truthy req.ip_address then { r1 with ip_address := req.ip_address } else r1
  let r3 := if !req.node_id.isEmpty then { r2 with node_id := req.node_id } else r2
  { r3 with last_seen := some now }

/-- The create branch of `register_node` (main.py lines 124–132): a fresh
record from the request plus column defaults. -/
def recordOfRegisterRequest (req : NodeRegisterRequest) (now : ℕ) : NodeRecord :=
  { node_hash := req.node_hash
    node_id := req.node_id
    public_key := req.public_key
    wallet := req.wallet
    dns_name := req.dns_name
    ip_address := req.ip_address
    last_seen := some now }

/-- `register_node` from main.py: upsert of off-chain self-registration. -/
def register_node (db : Registry) (req : NodeRegisterRequest) (now : ℕ) : Registry :=
  match findByHash db req.node_hash with
  | some _ => replaceFirst db req.node_hash (mergeRegisterRequest req now)
  | none => db ++ [recordOfRegisterRequest req now]

/-- `heartbeat` from main.py (lines 139–153): 404 when the hash is unknown;
otherwise stamp `last_seen`, optionally update the IP, and nudge
`uptime_score` by 0.01 capped at 1.0.  No trust recompute happens here. -/
def heartbeat (db : Registry) (h : String) (ip : Option String) (now : ℕ) :
    Option Registry :=
  match findByHash db h with
  | none => none
  | some _ => some (replaceFirst db h (fun r =>
      let r1 := { r with last_seen := some now }
      let r2 := if truthy ip then { r1 with ip_address := ip } else r1
      { r2 with uptime_score := min 1 (r2.uptime_score + 1/100) }))

/-- `endorse_node` from main.py (lines 197–207): 404 when unknown; otherwise
increment `endorsement_count`, commit, then `update_node_trust`. -/
def endorse_node (log1p : ℚ → ℚ) (db : Registry) (h : String) : Option Registry :=
  match findByHash db h with
  | none => none
  | some _ =>
    let db1 := replaceFirst db h incEndorsement
    match update_node_trust log1p db1 h with
    | .ok db2 => some db2
    | .error _ => none

/-- `complain_node` from main.py (lines 211–221): 404 when unknown; otherwise
increment `complaint_count`, commit, then `update_node_trust`. -/
def complain_node (log1p : ℚ → ℚ) (db : Registry) (h : String) : Option Registry :=
  match findByHash db h with
  | none => none
  | some _ =>
    let db1 := replaceFirst db h incComplaint
    match update_node_trust log1p db1 h with
    | .ok db2 => some db2
    | .error _ => none

/-- Payload of a `NodeRegistered` ledger event. -/
structure RegisteredEvent where
  node_hash : String
  wallet : String
  dns_name : String
  timestamp : ℕ
deriving DecidableEq, Repr

/-- The record `process_node_registered` creates (event_listener.py lines
75–85) plus the models.py column defaults for the unspecified columns. -/
def recordOfRegisteredEvent (ev : RegisteredEvent) : NodeRecord :=
  { node_hash := ev.node_hash
    node_id := ""
    wallet := some ev.wallet
    dns_name := some ev.dns_name
    verified := false
    stake_wei := 0
    registered_at := some ev.timestamp
    trust_tier := .UNVERIFIED
    trust_score := 0 }

/-- `process_node_registered` from event_listener.py: no-op when a record for
the hash already exists, otherwise insert a fresh record. -/
def process_node_registered (ev : RegisteredEvent) (db : Registry) : Registry :=
  match findByHash db ev.node_hash with
  | some _ => db
  | none => db ++ [recordOfRegisteredEvent ev]

/-- `process_node_verified` from event_listener.py: unknown hash → log a
warning and return; otherwise set `verified`, commit, recompute trust.
The `Bool` result records whether the unknown-hash warning was logged. -/
def process_node_verified (log1p : ℚ → ℚ) (evHash : String) (db : Registry) :
    Registry × Bool :=
  match findByHash db evHash with
  | none => (db, true)
  | some _ =>
    let db1 := replaceFirst db evHash setVerifiedTrue
    match update_node_trust log1p db1 evHash with
    | .ok db2 => (db2, false)
    | .error _ => (db1, false)

/-- `process_stake_added` from event_listener.py: unknown hash → log a
warning and return; otherwise store the event's `newTotal`, recompute. -/
def process_stake_added (log1p : ℚ → ℚ) (evHash : String) (newTotal : ℤ)
    (db : Registry) : Registry × Bool :=
  match findByHash db evHash with
  | none => (db, true)
  | some _ =>
    let db1 := replaceFirst db evHash (setStakeWei newTotal)
    match update_node_trust log1p db1 evHash with
    | .ok db2 => (db2, false)
    | .error _ => (db1, false)

/-- `process_stake_withdrawn` from event_listener.py: unknown hash → plain
`return` with *no* warning; otherwise re-fetch the authoritative stake from
chain (`chainStake = none` models the view-call failing, which is caught),
then recompute trust either way. -/
def process_stake_withdrawn (log1p : ℚ → ℚ) (evHash : String)
    (chainStake : Option ℤ) (db : Registry) : Registry × Bool :=
  match findByHash db evHash with
  | none => (db, false)
  | some _ =>
    let db1 :=
      match chainStake with
      | some s => replaceFirst db evHash (setStakeWei s)
      | none => db
    match update_node_trust log1p db1 evHash with
    | .ok db2 => (db2, false)
    | .error _ => (db1, false)

/-- `process_node_deregistered` from event_listener.py: unknown hash →
silently do nothing (no warning); otherwise set `active := false`. -/
def process_node_deregistered (evHash : String) (db : Registry) :
    Registry × Bool :=
  match findByHash db evHash with
  | none => (db, false)
  | some _ => (replaceFirst db evHash setInactive, false)

/-- The tuple returned by the contract's `getNode` view call, with the
positions used by the sources: `[0] = wallet`, `[2] = verified`,
`[3] = stakeAmount`, `[5] = active`. -/
structure OnChainNode where
  wallet : String
  verified : Bool
  stakeAmount : ℤ
  active : Bool
deriving DecidableEq, Repr

/-- The read-only ledger state seen by the resolver: the authoritative
`resolveDNS` name→hash mapping (absence = the zero hash, i.e. never claimed)
and the nodes answering `getNode`. -/
structure Ledger where
  dnsMap : List (String × String)
  nodes : List (String × OnChainNode)
deriving DecidableEq, Repr

/-- `resolveDNS(dnsName)` (dns_resolver.py lines 74–88): `none` models both
the zero-hash answer and a failed call, which the source also maps to None. -/
def resolve_on_chain (chain : Ledger) (dns_name : String) : Option String :=
  (chain.dnsMap.find? (fun p => p.1 == dns_name)).map (·.2)

/-- The `getNode` view call used by the resolver's fallback; `none` models
the call raising (caught by the source and turned into `None`). -/
def getNodeOnChain (chain : Ledger) (h : String) : Option OnChainNode :=
  (chain.nodes.find? (fun p => p.1 == h)).map (·.2)

/-- `DNSRecord` from dns_resolver.py. -/
structure DNSRecord where
  dns_name : String
  node_hash : String
  wallet : Option String
  public_key : Option String
  ip_address : Option String
  trust_score : ℚ
  trust_tier : Tier
  verified : Bool
  active : Bool
deriving DecidableEq, Repr

/-- `BizNodeDNSResolver.resolve` from dns_resolver.py (lines 107–157):
on-chain name lookup, then off-chain record, then on-chain `getNode`
fallback building the degraded record of lines 144–154. -/
def resolve (chain : Ledger) (db : Registry) (dns_name : String) :
    Option DNSRecord :=
  match resolve_on_chain chain dns_name with
  | none => none
  | some node_hash =>
    match findByHash db node_hash with
    | some meta =>
      some { dns_name := dns_name
             node_hash := node_hash
             wallet := meta.wallet
             public_key := meta.public_key
             ip_address := meta.ip_address
             trust_score := meta.trust_score
             trust_tier := meta.trust_tier
             verified := meta.verified
             active := meta.active }
    | none =>
      match getNodeOnChain chain node_hash with
      | some oc =>
        some { dns_name := dns_name
               node_hash := node_hash
               wallet := some oc.wallet
               public_key := none
               ip_address := none
               trust_score := 0
               trust_tier := if oc.verified then .VERIFIED else .UNVERIFIED
               verified := oc.verified
               active := oc.active }
      | none => none

-- ── Listener polling loop (event_listener.py lines 180–236) ─────────────────

def CONFIRMATIONS : ℤ := 2

/-- The inner per-batch loop of `run_listener`: each event is handed to its
handler inside `try/except`, so a failing handler leaves the state as it was
and processing continues with the next event. -/
def applyBatch {Ev : Type} (handler : Ev → Registry → Except String Registry)
    (events : List Ev) (db : Registry) : Registry :=
  events.foldl (fun d e => match handler e d with | .ok d' => d' | .error _ => d) db

/-- One iteration of the `while True` loop of `run_listener`: compute
`current_block = head − CONFIRMATIONS`; if it is `≤ from_block`, sleep (no
fetch, nothing persisted); otherwise fetch `[from_block, current_block]`,
apply the batch, set `from_block := current_block + 1` and persist that
value to the checkpoint file.  Result: (new from_block, new db, the value
persisted this iteration if any). -/
def listenerIter {Ev : Type} (handler : Ev → Registry → Except String Registry)
    (fetch : ℤ → ℤ → List Ev) (fb : ℤ) (db : Registry) (head : ℤ) :
    ℤ × Registry × Option ℤ :=
  let current := head - CONFIRMATIONS
  if current ≤ fb then (fb, db, none)
  else (current + 1, applyBatch handler (fetch fb current) db, some (current + 1))

/-- Block `b` is inside the `get_logs(fromBlock=fb, toBlock=head−CONF)` range
actually requested by an iteration (both ends inclusive; nothing is fetched
on a sleeping iteration). -/
def blockFetched (fb head b : ℤ) : Prop :=
  fb < head - CONFIRMATIONS ∧ fb ≤ b ∧ b ≤ head - CONFIRMATIONS

instance (fb head b : ℤ) : Decidable (blockFetched fb head b) :=
  inferInstanceAs (Decidable (_ ∧ _ ∧ _))

/-- Restart logic of `run_listener` (lines 201–205): resume from the
persisted checkpoint file when it exists, else rewind 1000 blocks. -/
def restartFromBlock (persisted : Option ℤ) (head : ℤ) : ℤ :=
  match persisted with
  | some p => p
  | none => head - 1000

/-- Several iterations of the loop, one per polled head value. -/
def listenerRun {Ev : Type} (handler : Ev → Registry → Except String Registry)
    (fetch : ℤ → ℤ → List Ev) : List ℤ → ℤ → Registry → ℤ × Registry
  | [], fb, db => (fb, db)
  | head :: rest, fb, db =>
    let (fb', db', _) := listenerIter handler fetch fb db head
    listenerRun handler fetch rest fb' db'

-- ── Concurrency model of `endorse_node`'s counter increment ─────────────────

/-- The storage-level steps of one `endorse_node` call (main.py lines
199–204): the ORM query loads `endorsement_count` into the session (read),
`+= 1` happens in Python, and `commit` writes back the computed value
(write).  Two concurrent calls are two such read/write pairs. -/
inductive EndorseStep where
  | readA
  | writeA
  | readB
  | writeB
deriving DecidableEq, Repr

/-- Storage counter plus each session's loaded copy. -/
structure EndorseState where
  counter : ℤ
  locA : ℤ
  locB : ℤ
deriving DecidableEq, Repr

/-- Effect of one step: reads copy the stored counter into the session,
writes store back the session's copy plus one (the `+= 1`). -/
def endorseStepFn (s : EndorseState) : EndorseStep → EndorseState
  | .readA => { s with locA := s.counter }
  | .writeA => { s with counter := s.locA + 1 }
  | .readB => { s with locB := s.counter }
  | .writeB => { s with counter := s.locB + 1 }

/-- Run an interleaving of the two calls' steps. -/
def runEndorseSchedule (sched : List EndorseStep) (s : EndorseState) : EndorseState :=
  sched.foldl endorseStepFn s

-- ── Supporting lemmas ───────────────────────────────────────────────────────

lemma findByHash_replaceFirst (db : Registry) (h : String)
    (f : NodeRecord → NodeRecord) (hf : ∀ r, (f r).node_hash = r.node_hash) :
    findByHash (replaceFirst db h f) h = (findByHash db h).map f := by
  induction db with
  | nil => rfl
  | cons r rest ih =>
    by_cases hr : r.node_hash = h
    · rw [replaceFirst, if_pos hr, findByHash, if_pos (by rw [hf r, hr]),
        findByHash, if_pos hr]
      rfl
    · rw [replaceFirst, if_neg hr, findByHash, if_neg hr, findByHash, if_neg hr, ih]

lemma replaceFirst_length (db : Registry) (h : String) (f : NodeRecord → NodeRecord) :
    (replaceFirst db h f).length = db.length := by
  induction db with
  | nil => rfl
  | cons r rest ih =>
    rw [replaceFirst]
    split
    · rfl
    · simp only [List.length_cons, ih]

lemma trustConsistent_updateNodeTrustRec (log1p : ℚ → ℚ) (r : NodeRecord) :
    trustConsistent log1p (updateNodeTrustRec log1p r) :=
  ⟨rfl, rfl⟩

lemma update_node_trust_found (log1p : ℚ → ℚ) (db : Registry) (h : String)
    (r0 : NodeRecord) (hf : findByHash db h = some r0) :
    update_node_trust log1p db h = .ok (replaceFirst db h (updateNodeTrustRec log1p)) := by
  unfold update_node_trust
  rw [hf]

lemma trustConsistent_after_update_node_trust (log1p : ℚ → ℚ)
    (db db1 : Registry) (h : String) (hu : update_node_trust log1p db1 h = .ok db) :
    ∀ r, findByHash db h = some r → trustConsistent log1p r := by
  unfold update_node_trust at hu
  cases hf : findByHash db1 h with
  | none => rw [hf] at hu; exact absurd hu (by simp)
  | some r0 =>
    rw [hf] at hu
    cases hu
    intro r hr
    rw [findByHash_replaceFirst db1 h (updateNodeTrustRec log1p) (fun _ => rfl), hf] at hr
    cases hr
    exact trustConsistent_updateNodeTrustRec log1p r0

lemma rawTrustScore_mem_Icc (log1p : ℚ → ℚ) (i : TrustInputs) :
    0 ≤ rawTrustScore log1p i ∧ rawTrustScore log1p i ≤ 100 := by
  unfold rawTrustScore
  exact ⟨le_max_left _ _, max_le (by norm_num) (min_le_left _ _)⟩

lemma rawTrustScore_eq_specScoreFormula (log1p : ℚ → ℚ) (i : TrustInputs)
    (h0 : log1p 0 = 0) (hs : 0 ≤ i.stake_matic) (ht : 1 ≤ i.total_interactions) :
    rawTrustScore log1p i = specScoreFormula log1p i := by
  unfold rawTrustScore specScoreFormula
  unfold MAX_STAKE_MATIC STAKE_WEIGHT UPTIME_WEIGHT AI_QUALITY_WEIGHT
    ENDORSEMENT_WEIGHT COMPLAINT_PENALTY VERIFIED_BONUS
  have hstake :
      (if 0 < i.stake_matic then min (log1p i.stake_matic / log1p 1000) 1 else 0)
        = min (log1p i.stake_matic / log1p 1000) 1 := by
    rcases lt_or_eq_of_le hs with hlt | heq
    · rw [if_pos hlt]
    · rw [if_neg (by rw [← heq]; exact lt_irrefl 0), ← heq, h0, zero_div]
      exact (min_eq_left zero_le_one).symm
  have hcast : (1 : ℚ) ≤ (i.total_interactions : ℚ) := by exact_mod_cast ht
  have hratio :
      (if 0 < i.total_interactions then
          (i.complaint_count : ℚ) / (i.total_interactions : ℚ) else 0)
        = (i.complaint_count : ℚ) / max (i.total_interactions : ℚ) 1 := by
    rw [if_pos (by omega), max_eq_left hcast]
  have hpen : ∀ x : ℚ, min (x * 10) 10 = min x 1 * 10 := by
    intro x
    rw [min_mul_of_nonneg x 1 (by norm_num : (0 : ℚ) ≤ 10), one_mul]
  rw [hstake, hratio]
  dsimp only
  rw [hpen]

/-- C1 (counterexample): at `total_interactions = 0` with one complaint the
code's penalty is 0 while the spec formula's is 10 (score 10 vs 0), and at
`uptime_ratio = 0.001` the returned score is rounded (0.02) while the spec
formula value is 0.025 — so the returned score does not equal the spec's
reference formula exactly.  `log1p` is instantiated with `id`, which agrees
with the real `log1p` on every value these inputs evaluate it at (only
`log1p 0 = 0` and quotients `0 / log1p c` matter here). -/
theorem compute_trust_score_deviates_from_spec_formula :
    (compute_trust_score id
        { complaint_count := 1, total_interactions := 0, verified := true }).1 = 10
  ∧ specScoreFormula id
        { complaint_count := 1, total_interactions := 0, verified := true } = 0
  ∧ (compute_trust_score id { uptime_ratio := 1/1000 }).1 = 1/50
  ∧ specScoreFormula id { uptime_ratio := 1/1000 } = 1/40
  ∧ (10 : ℚ) ≠ 0 ∧ (1 : ℚ)/50 ≠ 1/40 := by
  refine ⟨?_, ?_, ?_, ?_, by norm_num, by norm_num⟩
  · have hraw : rawTrustScore id
        { complaint_count := 1, total_interactions := 0, verified := true } = 10 := by
      unfold rawTrustScore
      norm_num [min_def, max_def, STAKE_WEIGHT, UPTIME_WEIGHT, AI_QUALITY_WEIGHT,
        ENDORSEMENT_WEIGHT, COMPLAINT_PENALTY, VERIFIED_BONUS]
    show round2 (rawTrustScore id _) = 10
    rw [hraw]
    unfold round2
    rw [show (10 : ℚ) * 100 = ((1000 : ℤ) : ℚ) by norm_num,
      roundHalfEven_eq_of_lt ((1000 : ℤ) : ℚ) 1000 (by norm_num) (by norm_num)]
    norm_num
  · unfold specScoreFormula
    norm_num [min_def, max_def]
  · have hraw : rawTrustScore id { uptime_ratio := 1/1000 } = 1/40 := by
      unfold rawTrustScore
      norm_num [min_def, max_def, STAKE_WEIGHT, UPTIME_WEIGHT, AI_QUALITY_WEIGHT,
        ENDORSEMENT_WEIGHT, COMPLAINT_PENALTY, VERIFIED_BONUS]
    show round2 (rawTrustScore id _) = 1/50
    rw [hraw]
    unfold round2
    rw [show (1 : ℚ)/40 * 100 = 5/2 by norm_num,
      roundHalfEven_tie (5/2) 2 (by norm_num)]
    norm_num
  · unfold specScoreFormula
    norm_num [min_def, max_def]

/-- C1 (amended): for stake ≥ 0 and total_interactions ≥ 1 the returned
score equals the spec's reference formula value rounded half-to-even to two
decimals (when total_interactions ≤ 0 the code's complaint penalty is 0
rather than the formula's `min(complaints, 1) * 10`), and the returned score
always lies in [0, 100].  The hypothesis `log1p 0 = 0` is a fact of the real
`math.log1p`. -/
theorem compute_trust_score_eq_round_spec_formula (log1p : ℚ → ℚ) (i : TrustInputs)
    (h0 : log1p 0 = 0) (hs : 0 ≤ i.stake_matic) (ht : 1 ≤ i.total_interactions) :
    (compute_trust_score log1p i).1 = round2 (specScoreFormula log1p i)
  ∧ 0 ≤ (compute_trust_score log1p i).1
  ∧ (compute_trust_score log1p i).1 ≤ 100 := by
  obtain ⟨hlo, hhi⟩ := rawTrustScore_mem_Icc log1p i
  obtain ⟨hb0, hb1⟩ := round2_mem_Icc (rawTrustScore log1p i) hlo hhi
  exact ⟨by
    show round2 (rawTrustScore log1p i) = round2 (specScoreFormula log1p i)
    rw [rawTrustScore_eq_specScoreFormula log1p i h0 hs ht], hb0, hb1⟩

/-- C1 (witness): the amended theorem applied at the concrete input with
`uptime_ratio = 1/2` and `log1p := id`. -/
theorem compute_trust_score_eq_round_spec_formula_witness :
    (compute_trust_score id { uptime_ratio := 1/2 }).1
        = round2 (specScoreFormula id { uptime_ratio := 1/2 })
  ∧ 0 ≤ (compute_trust_score id { uptime_ratio := 1/2 }).1
  ∧ (compute_trust_score id { uptime_ratio := 1/2 }).1 ≤ 100 :=
  compute_trust_score_eq_round_spec_formula id { uptime_ratio := 1/2 }
    rfl (by norm_num) (by norm_num)

/-- C2: the code's tier function agrees everywhere with the spec's ordered
rule (≥90 ENTERPRISE, ≥70 TRUSTED, ≥40 and verified VERIFIED, else
UNVERIFIED), and the input with `verified = true` and all other signals zero
yields exactly `(10.0, UNVERIFIED)`. -/
theorem score_to_tier_rule_and_verified_only_example (log1p : ℚ → ℚ)
    (s : ℚ) (v : Bool) (h0 : log1p 0 = 0) :
    scoreToTier s v = specTierRule s v
  ∧ compute_trust_score log1p { verified := true } = (10, .UNVERIFIED) := by
  constructor
  · rfl
  · have hraw : rawTrustScore log1p { verified := true } = 10 := by
      unfold rawTrustScore
      norm_num [min_def, max_def, h0, STAKE_WEIGHT, UPTIME_WEIGHT,
        AI_QUALITY_WEIGHT, ENDORSEMENT_WEIGHT, COMPLAINT_PENALTY, VERIFIED_BONUS]
    unfold compute_trust_score
    rw [hraw]
    unfold round2
    rw [show (10 : ℚ) * 100 = ((1000 : ℤ) : ℚ) by norm_num,
      roundHalfEven_eq_of_lt ((1000 : ℤ) : ℚ) 1000 (by norm_num) (by norm_num)]
    norm_num [scoreToTier]

/-- C2 (witness): the theorem applied at `log1p := id`, score 50,
verified := true. -/
theorem score_to_tier_rule_and_verified_only_example_witness :
    scoreToTier 50 true = specTierRule 50 true
  ∧ compute_trust_score id { verified := true } = (10, .UNVERIFIED) :=
  score_to_tier_rule_and_verified_only_example id 50 true rfl

/-- The C10 input: full stake, full uptime and AI quality, 100 endorsements,
one complaint among 2500 interactions, unverified. -/
def c10Input : TrustInputs :=
  { stake_matic := 1000, uptime_ratio := 1, ai_quality_score := 1,
    endorsement_count := 100, complaint_count := 1, total_interactions := 2500 }

/-- C10: an input whose raw clamped score is 89.996 ∈ [89.995, 90) — the
tier is computed from that unrounded value (TRUSTED), while the returned
score is rounded up to 90.0, so the returned pair is `(90.0, TRUSTED)`.  The
hypotheses are facts of the real `math.log1p`. -/
theorem score_rounding_crosses_tier_boundary (log1p : ℚ → ℚ)
    (h1000 : log1p 1000 ≠ 0) (h100 : log1p 100 ≠ 0) :
    89995/1000 ≤ rawTrustScore log1p c10Input
  ∧ rawTrustScore log1p c10Input < 90
  ∧ compute_trust_score log1p c10Input = (90, .TRUSTED) := by
  have e1 : log1p 1000 / log1p 1000 = 1 := div_self h1000
  have e2 : log1p 100 / log1p 100 = 1 := div_self h100
  have hraw : rawTrustScore log1p c10Input = 22499/250 := by
    unfold rawTrustScore c10Input MAX_STAKE_MATIC
    norm_num [min_def, max_def, e1, e2, STAKE_WEIGHT, UPTIME_WEIGHT,
      AI_QUALITY_WEIGHT, ENDORSEMENT_WEIGHT, COMPLAINT_PENALTY, VERIFIED_BONUS]
  refine ⟨by rw [hraw]; norm_num, by rw [hraw]; norm_num, ?_⟩
  unfold compute_trust_score
  rw [hraw]
  unfold round2
  rw [show (22499 : ℚ)/250 * 100 = 44998/5 by norm_num,
    roundHalfEven_eq_of_gt (44998/5) 8999 (by norm_num) (by norm_num)]
  norm_num [scoreToTier, c10Input]

/-- C10 (witness): the theorem applied at `log1p := id`. -/
theorem score_rounding_crosses_tier_boundary_witness :
    89995/1000 ≤ rawTrustScore id c10Input
  ∧ rawTrustScore id c10Input < 90
  ∧ compute_trust_score id c10Input = (90, .TRUSTED) :=
  score_rounding_crosses_tier_boundary id (by norm_num) (by norm_num)

/-- Evaluation helper: `compute_trust_score` once the raw score is known and
the rounding direction is downward/exact. -/
lemma compute_trust_score_eval (log1p : ℚ → ℚ) (i : TrustInputs) (q : ℚ) (n : ℤ)
    (hraw : rawTrustScore log1p i = q)
    (h1 : (n : ℚ) ≤ q * 100) (h2 : q * 100 < n + 1/2) :
    compute_trust_score log1p i = ((n : ℚ)/100, scoreToTier q i.verified) := by
  unfold compute_trust_score round2
  rw [hraw, roundHalfEven_eq_of_lt (q * 100) n h1 h2]

lemma findByHash_append_of_none (db : Registry) (h : String) (x : NodeRecord)
    (hn : findByHash db h = none) :
    findByHash (db ++ [x]) h = if x.node_hash = h then some x else none := by
  induction db with
  | nil => rfl
  | cons r rest ih =>
    by_cases hr : r.node_hash = h
    · rw [findByHash, if_pos hr] at hn
      exact absurd hn (by simp)
    · rw [findByHash, if_neg hr] at hn
      rw [List.cons_append, findByHash, if_neg hr, ih hn]

lemma trustConsistent_after_mutate_then_recompute (log1p : ℚ → ℚ)
    (db : Registry) (h : String) (f : NodeRecord → NodeRecord)
    (hpres : ∀ r, (f r).node_hash = r.node_hash)
    (r0 : NodeRecord) (hfind : findByHash db h = some r0) :
    ∀ r, findByHash
        (replaceFirst (replaceFirst db h f) h (updateNodeTrustRec log1p)) h = some r →
      trustConsistent log1p r := by
  apply trustConsistent_after_update_node_trust log1p _ (replaceFirst db h f) h
  apply update_node_trust_found
  rw [findByHash_replaceFirst db h f hpres, hfind]
  rfl

/-- The concrete record used against C3: all signals zero, consistent trust
fields. -/
def c3Rec : NodeRecord := { node_hash := "0xa" }

/-- The record after one heartbeat: `uptime_score` nudged to 0.01, trust
fields untouched. -/
def c3RecAfter : NodeRecord :=
  { node_hash := "0xa", uptime_score := 1/100, last_seen := some 7 }

/-- C3 (counterexample): `heartbeat` writes the scoring input `uptime_score`
but performs no trust recompute, so it turns a trust-consistent record into
a stale one: the stored score stays 0 while the scoring function on the
record's current fields yields 0.25. -/
theorem heartbeat_breaks_trust_consistency :
    trustConsistent id c3Rec
  ∧ heartbeat [c3Rec] "0xa" none 7 = some [c3RecAfter]
  ∧ ¬ trustConsistent id c3RecAfter := by
  have hraw0 : rawTrustScore id (trustInputsOf c3Rec) = 0 := by
    unfold rawTrustScore trustInputsOf c3Rec
    norm_num [min_def, max_def, STAKE_WEIGHT, UPTIME_WEIGHT, AI_QUALITY_WEIGHT,
      ENDORSEMENT_WEIGHT, COMPLAINT_PENALTY, VERIFIED_BONUS]
  have hc0 := compute_trust_score_eval id (trustInputsOf c3Rec) 0 0 hraw0
    (by norm_num) (by norm_num)
  have hraw1 : rawTrustScore id (trustInputsOf c3RecAfter) = 1/4 := by
    unfold rawTrustScore trustInputsOf c3RecAfter
    norm_num [min_def, max_def, STAKE_WEIGHT, UPTIME_WEIGHT, AI_QUALITY_WEIGHT,
      ENDORSEMENT_WEIGHT, COMPLAINT_PENALTY, VERIFIED_BONUS]
  have hc1 := compute_trust_score_eval id (trustInputsOf c3RecAfter) (1/4) 25 hraw1
    (by norm_num) (by norm_num)
  refine ⟨⟨?_, ?_⟩, ?_, ?_⟩
  · rw [hc0]; norm_num [c3Rec]
  · rw [hc0]
    show Tier.UNVERIFIED = scoreToTier 0 (trustInputsOf c3Rec).verified
    norm_num [scoreToTier, trustInputsOf, c3Rec]
  · show heartbeat [c3Rec] "0xa" none 7 = some [c3RecAfter]
    simp only [heartbeat, findByHash, c3Rec, if_pos rfl, replaceFirst, truthy]
    norm_num [c3RecAfter, min_def]
  · intro hcon
    obtain ⟨hsc, _⟩ := hcon
    rw [hc1] at hsc
    norm_num [c3RecAfter] at hsc

/-- C3 (amended): the operations that do recompute — endorse, complain, and
the Verified/StakeAdded/StakeWithdrawn ledger handlers — always leave the
target record's `trust_score`/`trust_tier` equal to the scoring function on
its current field values, and a freshly created Registered-event record is
consistent too; `heartbeat`, however, writes `uptime_score` without any
recompute (see the counterexample), so the claim's "including heartbeat"
fails. -/
theorem trust_consistency_after_recompute_ops (log1p : ℚ → ℚ)
    (db db' : Registry) (h : String) (newTotal : ℤ) (cs : Option ℤ)
    (ev : RegisteredEvent) (h0 : log1p 0 = 0) :
    (endorse_node log1p db h = some db' →
      ∀ r, findByHash db' h = some r → trustConsistent log1p r)
  ∧ (complain_node log1p db h = some db' →
      ∀ r, findByHash db' h = some r → trustConsistent log1p r)
  ∧ ((process_node_verified log1p h db).1 = db' →
      ∀ r, findByHash db' h = some r → trustConsistent log1p r)
  ∧ ((process_stake_added log1p h newTotal db).1 = db' →
      ∀ r, findByHash db' h = some r → trustConsistent log1p r)
  ∧ ((process_stake_withdrawn log1p h cs db).1 = db' →
      ∀ r, findByHash db' h = some r → trustConsistent log1p r)
  ∧ (findByHash db ev.node_hash = none →
      ∀ r, findByHash (process_node_registered ev db) ev.node_hash = some r →
        trustConsistent log1p r) := by
  refine ⟨?_, ?_, ?_, ?_, ?_, ?_⟩
  · intro he r hr
    cases hfind : findByHash db h with
    | none => unfold endorse_node at he; rw [hfind] at he; exact absurd he (by simp)
    | some r0 =>
      unfold endorse_node at he
      rw [hfind] at he
      dsimp only at he
      rw [update_node_trust_found log1p _ h (incEndorsement r0)
        (by rw [findByHash_replaceFirst db h incEndorsement (fun _ => rfl), hfind]; rfl)] at he
      dsimp only at he
      cases he
      exact trustConsistent_after_mutate_then_recompute log1p db h incEndorsement
        (fun _ => rfl) r0 hfind r hr
  · intro he r hr
    cases hfind : findByHash db h with
    | none => unfold complain_node at he; rw [hfind] at he; exact absurd he (by simp)
    | some r0 =>
      unfold complain_node at he
      rw [hfind] at he
      dsimp only at he
      rw [update_node_trust_found log1p _ h (incComplaint r0)
        (by rw [findByHash_replaceFirst db h incComplaint (fun _ => rfl), hfind]; rfl)] at he
      dsimp only at he
      cases he
      exact trustConsistent_after_mutate_then_recompute log1p db h incComplaint
        (fun _ => rfl) r0 hfind r hr
  · intro he r hr
    cases hfind : findByHash db h with
    | none =>
      unfold process_node_verified at he
      rw [hfind] at he
      dsimp only at he
      cases he
      rw [hfind] at hr
      exact absurd hr (by simp)
    | some r0 =>
      unfold process_node_verified at he
      rw [hfind] at he
      dsimp only at he
      rw [update_node_trust_found log1p _ h (setVerifiedTrue r0)
        (by rw [findByHash_replaceFirst db h setVerifiedTrue (fun _ => rfl), hfind]; rfl)] at he
      dsimp only at he
      cases he
      exact trustConsistent_after_mutate_then_recompute log1p db h setVerifiedTrue
        (fun _ => rfl) r0 hfind r hr
  · intro he r hr
    cases hfind : findByHash db h with
    | none =>
      unfold process_stake_added at he
      rw [hfind] at he
      dsimp only at he
      cases he
      rw [hfind] at hr
      exact absurd hr (by simp)
    | some r0 =>
      unfold process_stake_added at he
      rw [hfind] at he
      dsimp only at he
      rw [update_node_trust_found log1p _ h (setStakeWei newTotal r0)
        (by rw [findByHash_replaceFirst db h (setStakeWei newTotal) (fun _ => rfl), hfind];
            rfl)] at he
      dsimp only at he
      cases he
      exact trustConsistent_after_mutate_then_recompute log1p db h (setStakeWei newTotal)
        (fun _ => rfl) r0 hfind r hr
  · intro he r hr
    cases hfind : findByHash db h with
    | none =>
      unfold process_stake_withdrawn at he
      rw [hfind] at he
      dsimp only at he
      cases he
      rw [hfind] at hr
      exact absurd hr (by simp)
    | some r0 =>
      unfold process_stake_withdrawn at he
      rw [hfind] at he
      dsimp only at he
      cases cs with
      | some s =>
        dsimp only at he
        rw [update_node_trust_found log1p _ h (setStakeWei s r0)
          (by rw [findByHash_replaceFirst db h (setStakeWei s) (fun _ => rfl), hfind];
              rfl)] at he
        dsimp only at he
        cases he
        exact trustConsistent_after_mutate_then_recompute log1p db h (setStakeWei s)
          (fun _ => rfl) r0 hfind r hr
      | none =>
        dsimp only at he
        rw [update_node_trust_found log1p db h r0 hfind] at he
        dsimp only at he
        cases he
        exact trustConsistent_after_update_node_trust log1p _ db h
          (update_node_trust_found log1p db h r0 hfind) r hr
  · intro hn r hr
    unfold process_node_registered at hr
    rw [hn] at hr
    dsimp only at hr
    rw [findByHash_append_of_none db ev.node_hash _ hn,
      if_pos (show (recordOfRegisteredEvent ev).node_hash = ev.node_hash from rfl)] at hr
    cases hr
    have hzero : rawTrustScore log1p (trustInputsOf (recordOfRegisteredEvent ev)) = 0 := by
      unfold rawTrustScore trustInputsOf recordOfRegisteredEvent
      norm_num [min_def, max_def, h0, STAKE_WEIGHT, UPTIME_WEIGHT,
        AI_QUALITY_WEIGHT, ENDORSEMENT_WEIGHT, COMPLAINT_PENALTY, VERIFIED_BONUS]
    constructor
    · show (recordOfRegisteredEvent ev).trust_score = _
      rw [compute_trust_score_eval log1p _ 0 0 hzero (by norm_num) (by norm_num)]
      norm_num [recordOfRegisteredEvent]
    · show (recordOfRegisteredEvent ev).trust_tier = _
      rw [compute_trust_score_eval log1p _ 0 0 hzero (by norm_num) (by norm_num)]
      show Tier.UNVERIFIED = scoreToTier 0 (trustInputsOf (recordOfRegisteredEvent ev)).verified
      norm_num [scoreToTier, trustInputsOf, recordOfRegisteredEvent]

/-- Concrete record for the C3 witness. -/
def c3eRec : NodeRecord := { node_hash := "0xe" }

/-- The record produced by endorsing `c3eRec` once: count 1, recomputed
score 0.15 (endorsement_norm 0.01 × weight 15), tier UNVERIFIED. -/
def c3eAfter : NodeRecord :=
  { node_hash := "0xe", endorsement_count := 1, trust_score := 3/20 }

/-- C3 (witness): the amended theorem's endorse conjunct applied to a
concrete one-record registry, with every evaluation concrete. -/
theorem trust_consistency_after_recompute_ops_witness :
    endorse_node id [c3eRec] "0xe" = some [c3eAfter] ∧ trustConsistent id c3eAfter := by
  have hraw : rawTrustScore id (trustInputsOf (incEndorsement c3eRec)) = 3/20 := by
    unfold rawTrustScore trustInputsOf incEndorsement c3eRec
    norm_num [min_def, max_def, STAKE_WEIGHT, UPTIME_WEIGHT, AI_QUALITY_WEIGHT,
      ENDORSEMENT_WEIGHT, COMPLAINT_PENALTY, VERIFIED_BONUS]
  have hc := compute_trust_score_eval id (trustInputsOf (incEndorsement c3eRec))
    (3/20) 15 hraw (by norm_num) (by norm_num)
  have hupd : updateNodeTrustRec id (incEndorsement c3eRec) = c3eAfter := by
    unfold updateNodeTrustRec
    rw [hc]
    simp only [incEndorsement, c3eRec, c3eAfter]
    norm_num [scoreToTier]
  have he : endorse_node id [c3eRec] "0xe"
      = some [updateNodeTrustRec id (incEndorsement c3eRec)] := by
    unfold endorse_node
    rw [show findByHash [c3eRec] "0xe" = some c3eRec from rfl]
    dsimp only
    rw [update_node_trust_found id _ "0xe" (incEndorsement c3eRec)
      (by rw [findByHash_replaceFirst [c3eRec] "0xe" incEndorsement (fun _ => rfl)]; rfl)]
    rfl
  have he' : endorse_node id [c3eRec] "0xe" = some [c3eAfter] := by rw [he, hupd]
  refine ⟨he', ?_⟩
  exact (trust_consistency_after_recompute_ops id [c3eRec] [c3eAfter] "0xe" 0 none
    { node_hash := "0xz", wallet := "w", dns_name := "d", timestamp := 0 } rfl).1
    he' c3eAfter (by rw [show findByHash [c3eAfter] "0xe" = some c3eAfter from rfl])

/-- Concrete ledger for C4: `a.1bz` is claimed on-chain by hash `0xh`, whose
on-chain node is verified with wallet `0xW`; the off-chain store is empty. -/
def c4Ledger : Ledger :=
  { dnsMap := [("a.1bz", "0xh")]
    nodes := [("0xh", { wallet := "0xW", verified := true, stakeAmount := 0,
                        active := true })] }

/-- C4 (counterexample): resolving a name that is on-chain but missing from
the off-chain store yields the degraded record, but its `trust_tier` is
`VERIFIED` (copied from the chain's verified flag, dns_resolver.py line 151),
not the zeroed `UNVERIFIED` the claim asserts. -/
theorem resolve_degraded_tier_not_zeroed :
    (resolve c4Ledger [] "a.1bz").map (fun r => (r.trust_score, r.trust_tier))
        = some (0, Tier.VERIFIED)
  ∧ Tier.VERIFIED ≠ Tier.UNVERIFIED := by
  constructor
  · rfl
  · intro hc
    cases hc

/-- C4 (amended): a name with no on-chain entry resolves to NotFound
regardless of the off-chain store; a name mapped on-chain to a hash absent
off-chain resolves (provided the `getNode` view call answers) to a degraded
record carrying the chain's wallet and verified flag, with `trust_score = 0`
but `trust_tier = VERIFIED` when the chain flag is set (else `UNVERIFIED`),
and `public_key`/`ip_address` empty. -/
theorem resolve_notfound_and_degraded_fallback (chain : Ledger) (db : Registry)
    (name : String) :
    (resolve_on_chain chain name = none → resolve chain db name = none)
  ∧ (∀ h oc, resolve_on_chain chain name = some h → findByHash db h = none →
      getNodeOnChain chain h = some oc →
      resolve chain db name =
        some { dns_name := name, node_hash := h, wallet := some oc.wallet,
               public_key := none, ip_address := none, trust_score := 0,
               trust_tier := if oc.verified then .VERIFIED else .UNVERIFIED,
               verified := oc.verified, active := oc.active }) := by
  constructor
  · intro hn
    unfold resolve
    rw [hn]
  · intro h oc hon hoff hnode
    unfold resolve
    rw [hon]
    dsimp only
    rw [hoff]
    dsimp only
    rw [hnode]

/-- C4 (witness): the amended theorem applied to the concrete ledger — a
never-claimed name returns NotFound, and `a.1bz` (absent off-chain) returns
the concrete degraded record. -/
theorem resolve_notfound_and_degraded_fallback_witness :
    resolve c4Ledger [] "ghost.1bz" = none
  ∧ resolve c4Ledger [] "a.1bz" =
      some { dns_name := "a.1bz", node_hash := "0xh", wallet := some "0xW",
             public_key := none, ip_address := none, trust_score := 0,
             trust_tier := if true then .VERIFIED else .UNVERIFIED,
             verified := true, active := true } :=
  ⟨(resolve_notfound_and_degraded_fallback c4Ledger [] "ghost.1bz").1 rfl,
   (resolve_notfound_and_degraded_fallback c4Ledger [] "a.1bz").2 "0xh"
     { wallet := "0xW", verified := true, stakeAmount := 0, active := true }
     rfl rfl rfl⟩

/-- C5 (counterexample): with `from_block = 0` and head 10 the batch's upper
bound is block 8, yet the value persisted is 9 — the next block to fetch,
not the "new upper bound"; and after a restart from a persisted value of 9,
block 9 itself (a block "at the checkpoint") is inside the fetched range. -/
theorem checkpoint_is_next_block_not_upper_bound :
    listenerIter (fun (_ : Unit) d => Except.ok d) (fun _ _ => []) 0 [] 10
        = (9, [], some 9)
  ∧ (10 : ℤ) - CONFIRMATIONS = 8
  ∧ (9 : ℤ) ≠ 8
  ∧ blockFetched (restartFromBlock (some 9) 20) 20 9 := by
  refine ⟨?_, by norm_num [CONFIRMATIONS], by norm_num, ?_⟩
  · unfold listenerIter applyBatch CONFIRMATIONS
    norm_num
  · unfold blockFetched restartFromBlock CONFIRMATIONS
    norm_num

/-- C5 (amended): the persisted value never decreases (per iteration and
across any run), is independent of event-handler success, and equals the
batch's upper bound **plus one** (the next block to fetch); on restart the
fetch range starts exactly at the persisted value, so blocks strictly below
it are never refetched, while the block equal to the persisted value is the
first one fetched. -/
theorem checkpoint_monotone_and_restart_semantics {Ev : Type}
    (handler handler2 : Ev → Registry → Except String Registry)
    (fetch : ℤ → ℤ → List Ev) (fb : ℤ) (db : Registry) (head : ℤ)
    (heads : List ℤ) (p b h2 : ℤ) :
    fb ≤ (listenerIter handler fetch fb db head).1
  ∧ (listenerIter handler fetch fb db head).1
      = (listenerIter handler2 fetch fb db head).1
  ∧ ((listenerIter handler fetch fb db head).2.2 = none ∨
      (listenerIter handler fetch fb db head).2.2
        = some (listenerIter handler fetch fb db head).1)
  ∧ (fb < head - CONFIRMATIONS →
      (listenerIter handler fetch fb db head).2.2
        = some (head - CONFIRMATIONS + 1))
  ∧ fb ≤ (listenerRun handler fetch heads fb db).1
  ∧ (blockFetched (restartFromBlock (some p) h2) h2 b → p ≤ b) := by
  have hstep : ∀ (hd : Ev → Registry → Except String Registry) (fb' : ℤ)
      (db' : Registry) (head' : ℤ), fb' ≤ (listenerIter hd fetch fb' db' head').1 := by
    intro hd fb' db' head'
    unfold listenerIter
    dsimp only
    split_ifs with hc
    · exact le_refl _
    · show fb' ≤ head' - CONFIRMATIONS + 1
      omega
  refine ⟨hstep handler fb db head, ?_, ?_, ?_, ?_, ?_⟩
  · unfold listenerIter
    dsimp only
    split_ifs <;> rfl
  · unfold listenerIter
    dsimp only
    split_ifs
    · exact Or.inl rfl
    · exact Or.inr rfl
  · intro hlt
    unfold listenerIter
    dsimp only
    rw [if_neg (by omega)]
  · induction heads generalizing fb db with
    | nil => exact le_refl _
    | cons head' rest ih =>
      rcases hiter : listenerIter handler fetch fb db head' with ⟨fb', db', p'⟩
      have hrun : listenerRun handler fetch (head' :: rest) fb db
          = listenerRun handler fetch rest fb' db' := by
        simp only [listenerRun]
        rw [hiter]
      have h1 : fb ≤ fb' := by
        have := hstep handler fb db head'
        rw [hiter] at this
        exact this
      rw [hrun]
      exact le_trans h1 (ih fb' db')
  · intro hbf
    obtain ⟨_, hb, _⟩ := hbf
    exact hb

/-- C5 (witness): the amended theorem at concrete values — with
`from_block = 0`, head 10 the persisted value is 9, and a restart from a
persisted 3 only fetches blocks ≥ 3 (block 5 shown). -/
theorem checkpoint_monotone_and_restart_semantics_witness :
    (listenerIter (fun (_ : Unit) d => Except.ok d) (fun _ _ => []) 0 [] 10).2.2
        = some (10 - CONFIRMATIONS + 1)
  ∧ (3 : ℤ) ≤ 5 :=
  ⟨(checkpoint_monotone_and_restart_semantics (fun (_ : Unit) d => Except.ok d)
      (fun _ d => Except.ok d) (fun _ _ => []) 0 [] 10 [10, 20] 3 5 20).2.2.2.1
      (by norm_num [CONFIRMATIONS]),
   (checkpoint_monotone_and_restart_semantics (fun (_ : Unit) d => Except.ok d)
      (fun _ d => Except.ok d) (fun _ _ => []) 0 [] 10 [10, 20] 3 5 20).2.2.2.2.2
      (by norm_num [blockFetched, restartFromBlock, CONFIRMATIONS])⟩

/-- C6: applying a Registered event is idempotent — with an existing record
for the hash the registry is entirely unchanged (so every field of the
existing record is unchanged and nothing is created); with no record,
exactly one record is appended, with `verified = false`, `trust_score = 0`,
`trust_tier = UNVERIFIED`. -/
theorem process_node_registered_idempotent (ev : RegisteredEvent) (db : Registry) :
    (∀ r, findByHash db ev.node_hash = some r → process_node_registered ev db = db)
  ∧ (findByHash db ev.node_hash = none →
      process_node_registered ev db = db ++ [recordOfRegisteredEvent ev]
      ∧ (process_node_registered ev db).length = db.length + 1
      ∧ (recordOfRegisteredEvent ev).verified = false
      ∧ (recordOfRegisteredEvent ev).trust_score = 0
      ∧ (recordOfRegisteredEvent ev).trust_tier = .UNVERIFIED) := by
  constructor
  · intro r hr
    unfold process_node_registered
    rw [hr]
  · intro hn
    unfold process_node_registered
    rw [hn]
    exact ⟨rfl, by simp, rfl, rfl, rfl⟩

/-- C6 (witness): the theorem applied to a concrete event against a registry
already holding the hash (no-op) and against the empty registry (creation). -/
theorem process_node_registered_idempotent_witness :
    process_node_registered
        { node_hash := "0xr", wallet := "0xW", dns_name := "r.1bz", timestamp := 1 }
        [{ node_hash := "0xr" }]
      = [{ node_hash := "0xr" }]
  ∧ process_node_registered
        { node_hash := "0xr", wallet := "0xW", dns_name := "r.1bz", timestamp := 1 } []
      = [] ++ [recordOfRegisteredEvent
        { node_hash := "0xr", wallet := "0xW", dns_name := "r.1bz", timestamp := 1 }] :=
  ⟨(process_node_registered_idempotent
      { node_hash := "0xr", wallet := "0xW", dns_name := "r.1bz", timestamp := 1 }
      [{ node_hash := "0xr" }]).1 { node_hash := "0xr" } rfl,
   ((process_node_registered_idempotent
      { node_hash := "0xr", wallet := "0xW", dns_name := "r.1bz", timestamp := 1 }
      []).2 rfl).1⟩

/-- C7 (counterexample): for an unknown hash, `process_stake_withdrawn` and
`process_node_deregistered` return with the registry unchanged but log *no*
warning (second component `false`), contradicting the claim that every one
of the four handlers logs a warning. -/
theorem stake_withdrawn_unknown_hash_silent :
    process_stake_withdrawn id "0xdead" (some 5) [] = ([], false)
  ∧ process_node_deregistered "0xdead" [] = ([], false)
  ∧ false ≠ true := by
  exact ⟨rfl, rfl, by simp⟩

/-- C7 (amended): every handler given an event whose hash has no record
leaves the registry unchanged and returns without raising; Verified and
StakeAdded log the unknown-hash warning, while StakeWithdrawn and
Deregistered skip silently. -/
theorem unknown_hash_handlers_skip (log1p : ℚ → ℚ) (h : String) (db : Registry)
    (newTotal : ℤ) (cs : Option ℤ) (hmiss : findByHash db h = none) :
    process_node_verified log1p h db = (db, true)
  ∧ process_stake_added log1p h newTotal db = (db, true)
  ∧ process_stake_withdrawn log1p h cs db = (db, false)
  ∧ process_node_deregistered h db = (db, false) := by
  refine ⟨?_, ?_, ?_, ?_⟩
  · unfold process_node_verified
    rw [hmiss]
  · unfold process_stake_added
    rw [hmiss]
  · unfold process_stake_withdrawn
    rw [hmiss]
  · unfold process_node_deregistered
    rw [hmiss]

/-- C7 (witness): the amended theorem applied to a registry that holds a
different hash, so the lookup concretely misses. -/
theorem unknown_hash_handlers_skip_witness :
    process_node_verified id "0xmiss" [{ node_hash := "0xother" }]
        = ([{ node_hash := "0xother" }], true)
  ∧ process_stake_added id "0xmiss" 7 [{ node_hash := "0xother" }]
        = ([{ node_hash := "0xother" }], true)
  ∧ process_stake_withdrawn id "0xmiss" none [{ node_hash := "0xother" }]
        = ([{ node_hash := "0xother" }], false)
  ∧ process_node_deregistered "0xmiss" [{ node_hash := "0xother" }]
        = ([{ node_hash := "0xother" }], false) :=
  unknown_hash_handlers_skip id "0xmiss" [{ node_hash := "0xother" }] 7 none
    (by rw [show findByHash [{ node_hash := "0xother" }] "0xmiss" = none from rfl])

/-- C8: the endorse counter update is an application-level read-modify-write
(`node.endorsement_count += 1` on the ORM row, then commit), not an atomic
storage-layer increment, so two concurrent endorse calls interleaved
read-read-write-write lose one update: the counter ends at 1 where the
claim requires exactly 2 (the sequential interleaving does give 2). -/
theorem endorse_rmw_lost_update :
    (runEndorseSchedule [.readA, .readB, .writeA, .writeB]
        { counter := 0, locA := 0, locB := 0 }).counter = 1
  ∧ (runEndorseSchedule [.readA, .writeA, .readB, .writeB]
        { counter := 0, locA := 0, locB := 0 }).counter = 2
  ∧ (1 : ℤ) ≠ 2 := by
  exact ⟨rfl, rfl, by norm_num⟩

/-- Existing record for C9: has a node_id, no wallet, no dns_name. -/
def c9Rec : NodeRecord := { node_hash := "0xh", node_id := "nid" }

/-- Self-registration request for C9 supplying a wallet and a dns_name. -/
def c9Req : NodeRegisterRequest :=
  { node_hash := "0xh", node_id := "nid2", wallet := some "0xW",
    dns_name := some "x.1bz" }

/-- C9 (counterexample): re-registering an existing record with a request
that supplies `wallet` and `dns_name` leaves both fields untouched — the
update branch of `register_node` only merges `public_key`, `ip_address` and
`node_id`, so the claim that *every* supplied field is merged fails. -/
theorem register_node_ignores_wallet_on_update :
    register_node [c9Rec] c9Req 5
        = [{ c9Rec with node_id := "nid2", last_seen := some 5 }]
  ∧ ({ c9Rec with node_id := "nid2", last_seen := some 5 } : NodeRecord).wallet = none
  ∧ c9Req.wallet = some "0xW"
  ∧ ({ c9Rec with node_id := "nid2", last_seen := some 5 } : NodeRecord).dns_name = none
  ∧ c9Req.dns_name = some "x.1bz"
  ∧ some "0xW" ≠ (none : Option String) := by
  refine ⟨rfl, rfl, rfl, rfl, rfl, by simp⟩

/-- C9 (amended): when a record with the request's hash exists, the upsert
merges only `public_key`, `ip_address` (when truthy) and `node_id` (when
non-empty) and stamps `last_seen`; the supplied `wallet` and `dns_name` are
ignored, every other field is unchanged, and no record is created.  When no
record exists, a fresh record is created from all the request's fields. -/
theorem register_node_upsert_behavior (db : Registry) (req : NodeRegisterRequest)
    (now : ℕ) :
    (∀ r, findByHash db req.node_hash = some r →
      register_node db req now
          = replaceFirst db req.node_hash (mergeRegisterRequest req now)
      ∧ (register_node db req now).length = db.length
      ∧ ((mergeRegisterRequest req now r).wallet = r.wallet
        ∧ (mergeRegisterRequest req now r).dns_name = r.dns_name
        ∧ (mergeRegisterRequest req now r).verified = r.verified
        ∧ (mergeRegisterRequest req now r).stake_wei = r.stake_wei
        ∧ (mergeRegisterRequest req now r).uptime_score = r.uptime_score
        ∧ (mergeRegisterRequest req now r).ai_quality_score = r.ai_quality_score
        ∧ (mergeRegisterRequest req now r).endorsement_count = r.endorsement_count
        ∧ (mergeRegisterRequest req now r).complaint_count = r.complaint_count
        ∧ (mergeRegisterRequest req now r).trust_score = r.trust_score
        ∧ (mergeRegisterRequest req now r).trust_tier = r.trust_tier
        ∧ (mergeRegisterRequest req now r).active = r.active
        ∧ (mergeRegisterRequest req now r).last_seen = some now
        ∧ (truthy req.public_key = true →
            (mergeRegisterRequest req now r).public_key = req.public_key)
        ∧ (truthy req.public_key = false →
            (mergeRegisterRequest req now r).public_key = r.public_key)
        ∧ (truthy req.ip_address = true →
            (mergeRegisterRequest req now r).ip_address = req.ip_address)
        ∧ (truthy req.ip_address = false →
            (mergeRegisterRequest req now r).ip_address = r.ip_address)
        ∧ (req.node_id.isEmpty = false →
            (mergeRegisterRequest req now r).node_id = req.node_id)
        ∧ (req.node_id.isEmpty = true →
            (mergeRegisterRequest req now r).node_id = r.node_id)))
  ∧ (findByHash db req.node_hash = none →
      register_node db req now = db ++ [recordOfRegisterRequest req now]
      ∧ (recordOfRegisterRequest req now).wallet = req.wallet
      ∧ (recordOfRegisterRequest req now).dns_name = req.dns_name
      ∧ (recordOfRegisterRequest req now).public_key = req.public_key
      ∧ (recordOfRegisterRequest req now).ip_address = req.ip_address
      ∧ (recordOfRegisterRequest req now).node_id = req.node_id) := by
  constructor
  · intro r hr
    have hreg : register_node db req now
        = replaceFirst db req.node_hash (mergeRegisterRequest req now) := by
      unfold register_node
      rw [hr]
    refine ⟨hreg, by rw [hreg, replaceFirst_length], ?_⟩
    unfold mergeRegisterRequest
    cases hpk : truthy req.public_key <;> cases hip : truthy req.ip_address <;>
      cases hid : req.node_id.isEmpty <;>
      simp [hpk, hip, hid]
  · intro hn
    unfold register_node
    rw [hn]
    exact ⟨rfl, rfl, rfl, rfl, rfl, rfl⟩

/-- C9 (witness): the amended theorem at the concrete record and request —
the update branch rewrites the registry via the merge function (which keeps
the wallet), and registration into an empty registry creates the record. -/
theorem register_node_upsert_behavior_witness :
    register_node [c9Rec] c9Req 5
        = replaceFirst [c9Rec] c9Req.node_hash (mergeRegisterRequest c9Req 5)
  ∧ (mergeRegisterRequest c9Req 5 c9Rec).wallet = c9Rec.wallet
  ∧ register_node [] c9Req 5 = [] ++ [recordOfRegisterRequest c9Req 5] :=
  ⟨((register_node_upsert_behavior [c9Rec] c9Req 5).1 c9Rec rfl).1,
   ((register_node_upsert_behavior [c9Rec] c9Req 5).1 c9Rec rfl).2.2.1,
   ((register_node_upsert_behavior [] c9Req 5).2 rfl).1⟩
